import Mathlib

/-!
Formal model of the commit-authenticity analysis engine of `git_analyzer.py`
(repository `github-auditor`).

The engine's three core functions are embedded shallowly:

* `analyze_commits`  — reduces a list of commit records to aggregate statistics
  (the Python function returns a dict; the empty-history and exception cases
  return a dict carrying an `"error"` key, modelled by the `CommitAnalysis`
  constructors `noCommits` and `failed`).
* `detect_red_flags` — evaluates seven heuristic rules on the statistics.
* `calculate_repo_authenticity_score` — combines statistics and red flags
  into a clamped integer score.

Modelling conventions:

* Commit timestamps are epoch seconds as natural numbers.  Python's
  `datetime.fromtimestamp` converts to local wall-clock time; the model uses
  the UTC decomposition `hour = t / 3600 % 24`, `day index = (t / 86400 + 4) % 7`
  (epoch day 0 is a Thursday).  No claim depends on the time-zone offset.
* Python floats are modelled by exact rationals.  `round(x, 2)` is modelled by
  `round2` using Mathlib's `round` (round-half-up).  Python's float `round` is
  round-half-to-even on binary approximations; the two agree except at exact
  decimal midpoints, which no quantity in the development attains.
* Python dicts (`authors`, `commit_hours`, `commit_days`) are modelled as
  association lists in key-insertion order (`dedupFirst` paired with counts),
  which matches dict iteration order; `max(d.items(), key=...)[1]` keeps the
  earliest maximal entry, modelled by `firstArgmax`.
* `str.strip`, `str.split("\n")[0]` and `str.lower` are modelled at the
  character-list level for the ASCII inputs that occur in commit messages.
-/

/-- One normalized commit record: author name, commit timestamp in epoch
seconds, optional number of changed lines (absent when the stats of the
underlying commit cannot be read), and the raw commit message. -/
structure CommitRecord where
  author_name : String
  committed_at : ℕ
  lines_changed : Option ℕ
  message : String
deriving DecidableEq

/-- Severity label of a red flag. -/
inductive Severity where
  | low
  | medium
  | high
deriving DecidableEq

/-- The seven red-flag kinds of `detect_red_flags`, in source order. -/
inductive FlagType where
  | low_activity
  | no_collaboration
  | suspicious_timing
  | bulk_upload
  | burst_activity
  | generic_messages
  | dominated_repo
deriving DecidableEq

/-- One red flag as appended by `detect_red_flags`. -/
structure RedFlag where
  type : FlagType
  severity : Severity
  message : String
  score_impact : ℤ
deriving DecidableEq

/-- The statistics dict returned by `analyze_commits` in the non-error case.
`first_commit_date` / `last_commit_date` hold the min/max timestamp (the
source stores their ISO rendering).  The three trailing fields model the
nested dicts as association lists in key-insertion order. -/
structure CommitStatistics where
  total_commits : ℕ
  unique_authors : ℕ
  top_author : String
  top_author_commits : ℕ
  first_commit_date : ℕ
  last_commit_date : ℕ
  days_active : ℕ
  commits_per_day : ℚ
  most_active_hour : ℕ
  most_active_day : String
  hour_concentration : ℚ
  avg_commit_size : ℚ
  max_commit_size : ℕ
  median_commit_size : ℚ
  generic_message_ratio : ℚ
  commit_hours_distribution : List (ℕ × ℕ)
  commit_days_distribution : List (String × ℕ)
  authors : List (String × ℕ)
deriving DecidableEq

/-- Result of `analyze_commits`: the Python function returns either the
statistics dict, the zero-commit dict `{"total_commits": 0, "error": "No
commits found"}`, or (when an exception escapes the loop) a dict with only an
`"error"` key.  Both error dicts satisfy the `"error" in commit_analysis`
test used by the two downstream functions. -/
inductive CommitAnalysis where
  | noCommits
  | failed (msg : String)
  | ok (s : CommitStatistics)

/-- Python `round(x, 2)` on exact rationals (round half up; see header note). -/
def round2 (q : ℚ) : ℚ := ((round (q * 100) : ℤ) : ℚ) / 100

/-- Python `round(x, 1)` on exact rationals. -/
def round1 (q : ℚ) : ℚ := ((round (q * 10) : ℤ) : ℚ) / 10

/-- `max` of a list of naturals, Python `max(list)` (meaningful on nonempty
lists; the `[]` case never arises in the modelled code paths). -/
def natListMax : List ℕ → ℕ
  | [] => 0
  | [x] => x
  | x :: y :: xs => max x (natListMax (y :: xs))

/-- `min` of a list of naturals, Python `min(list)`. -/
def natListMin : List ℕ → ℕ
  | [] => 0
  | [x] => x
  | x :: y :: xs => min x (natListMin (y :: xs))

/-- Helper for `dedupFirst`: keys not yet in `seen`, in first-occurrence
order, accumulating the keys already emitted. -/
def dedupFirstAux {α : Type} [DecidableEq α] (seen : List α) : List α → List α
  | [] => []
  | x :: xs => if x ∈ seen then dedupFirstAux seen xs
    else x :: dedupFirstAux (x :: seen) xs

/-- Keys of a Python dict built by repeated `d[k] += 1`, i.e. the input list
with later duplicates removed, in first-occurrence (insertion) order. -/
def dedupFirst {α : Type} [DecidableEq α] (l : List α) : List α :=
  dedupFirstAux [] l

/-- Python `max(items, key=f)`: the earliest element with maximal `f`-value
(`max` keeps the current candidate on ties). -/
def firstArgmax {α : Type} [Inhabited α] (f : α → ℕ) : List α → α
  | [] => default
  | x :: xs => xs.foldl (fun b k => if f k > f b then k else b) x

/-- True on the ASCII whitespace stripped by `str.strip` in the inputs that
occur here. -/
def isSpaceChar (c : Char) : Bool :=
  c = ' ' || c = '\t' || c = '\n' || c = '\r'

/-- ASCII lower-casing of one character (Python `str.lower` on ASCII). -/
def lowerChar (c : Char) : Char :=
  if 'A' ≤ c && c ≤ 'Z' then Char.ofNat (c.toNat + 32) else c

/-- Python `s.lower()` for ASCII strings. -/
def lowerStr (s : String) : String :=
  String.mk (s.toList.map lowerChar)

/-- Python `message.strip().split("\n")[0]`: strip surrounding whitespace,
then keep the first line. -/
def normalizedFirstLine (s : String) : String :=
  String.mk
    ((((s.toList.dropWhile isSpaceChar).reverse.dropWhile isSpaceChar).reverse).takeWhile
      (fun c => c ≠ '\n'))

/-- The fixed set of generic commit messages tested by `analyze_commits`. -/
def genericPhrases : List String :=
  ["initial commit", "update", "fix", "commit", ".", "first commit"]

/-- Wall-clock hour of an epoch-second timestamp (see header note). -/
def hourOf (t : ℕ) : ℕ := t / 3600 % 24

/-- Weekday name of an epoch-second timestamp, Python `strftime("%A")`
(epoch day 0 is a Thursday). -/
def dayNameOf (t : ℕ) : String :=
  ["Thursday", "Friday", "Saturday", "Sunday", "Monday", "Tuesday",
    "Wednesday"].getD (t / 86400 % 7) ""

/-- The `commit_sizes` list: `lines_changed` of exactly the commits whose
size is known (the `try` body appends; the `except` path skips). -/
def commit_sizes (cs : List CommitRecord) : List ℕ :=
  cs.filterMap (fun c => c.lines_changed)

/-- The author name of every commit, in commit order. -/
def commitAuthors (cs : List CommitRecord) : List String :=
  cs.map (fun c => c.author_name)

/-- The commit hour of every commit, in commit order. -/
def commitHours (cs : List CommitRecord) : List ℕ :=
  cs.map (fun c => hourOf c.committed_at)

/-- The weekday name of every commit, in commit order. -/
def commitDayNames (cs : List CommitRecord) : List String :=
  cs.map (fun c => dayNameOf c.committed_at)

/-- The timestamp of every commit, in commit order (`commit_dates`). -/
def commitTimes (cs : List CommitRecord) : List ℕ :=
  cs.map (fun c => c.committed_at)

/-- First message line of every commit (`commit_messages`). -/
def commitMessages (cs : List CommitRecord) : List String :=
  cs.map (fun c => normalizedFirstLine c.message)

/-- `(last_commit - first_commit).days` before the `max(·, 1)` floor. -/
def daysSpan (cs : List CommitRecord) : ℕ :=
  (natListMax (commitTimes cs) - natListMin (commitTimes cs)) / 86400

/-- `max(commit_hours.values())`: the size of the fullest hour bucket. -/
def maxHourCommits (cs : List CommitRecord) : ℕ :=
  natListMax ((dedupFirst (commitHours cs)).map (fun h => (commitHours cs).count h))

/-- The exact (pre-rounding) hour concentration `max_hour_commits / total_commits`. -/
def rawHourConcentration (cs : List CommitRecord) : ℚ :=
  (maxHourCommits cs : ℚ) / (cs.length : ℚ)

/-- Number of commits whose first message line is, lower-cased, one of the
`genericPhrases`. -/
def genericCount (cs : List CommitRecord) : ℕ :=
  (commitMessages cs).countP (fun m => genericPhrases.contains (lowerStr m))

/-- The exact (pre-rounding) generic-message fraction. -/
def rawGenericRatio (cs : List CommitRecord) : ℚ :=
  (genericCount cs : ℚ) / (cs.length : ℚ)

/-- Insert a natural into a sorted list, keeping it sorted. -/
def insertSorted (x : ℕ) : List ℕ → List ℕ
  | [] => [x]
  | y :: ys => if x ≤ y then x :: y :: ys else y :: insertSorted x ys

/-- Stable insertion sort, modelling Python `sorted`. -/
def sortNat (l : List ℕ) : List ℕ := l.foldr insertSorted []

/-- Python `statistics.median` on a list of naturals, as an exact rational:
middle element of the sorted list, or the mean of the two middle elements. -/
def medianQ (l : List ℕ) : ℚ :=
  let s := sortNat l
  if l.length % 2 = 1 then ((s.getD (l.length / 2) 0 : ℕ) : ℚ)
  else (((s.getD (l.length / 2 - 1) 0 : ℕ) : ℚ) + ((s.getD (l.length / 2) 0 : ℕ) : ℚ)) / 2

/-- The statistics dict built by `analyze_commits` on a nonempty commit list,
field by field in source order. -/
def commitStatsOf (cs : List CommitRecord) : CommitStatistics where
  total_commits := cs.length
  unique_authors := (dedupFirst (commitAuthors cs)).length
  top_author :=
    firstArgmax (fun a => (commitAuthors cs).count a) (dedupFirst (commitAuthors cs))
  top_author_commits :=
    natListMax ((dedupFirst (commitAuthors cs)).map (fun a => (commitAuthors cs).count a))
  first_commit_date := natListMin (commitTimes cs)
  last_commit_date := natListMax (commitTimes cs)
  days_active := max (daysSpan cs) 1
  commits_per_day := round2 ((cs.length : ℚ) / ((max (daysSpan cs) 1 : ℕ) : ℚ))
  most_active_hour :=
    firstArgmax (fun h => (commitHours cs).count h) (dedupFirst (commitHours cs))
  most_active_day :=
    firstArgmax (fun d => (commitDayNames cs).count d) (dedupFirst (commitDayNames cs))
  hour_concentration := round2 (rawHourConcentration cs)
  avg_commit_size :=
    if commit_sizes cs = [] then 0
    else round1 (((commit_sizes cs).sum : ℚ) / ((commit_sizes cs).length : ℚ))
  max_commit_size := if commit_sizes cs = [] then 0 else natListMax (commit_sizes cs)
  median_commit_size := if commit_sizes cs = [] then 0 else round1 (medianQ (commit_sizes cs))
  generic_message_ratio := round2 (rawGenericRatio cs)
  commit_hours_distribution :=
    (dedupFirst (commitHours cs)).map (fun h => (h, (commitHours cs).count h))
  commit_days_distribution :=
    (dedupFirst (commitDayNames cs)).map (fun d => (d, (commitDayNames cs).count d))
  authors :=
    (dedupFirst (commitAuthors cs)).map (fun a => (a, (commitAuthors cs).count a))

/-- `analyze_commits`: the zero-commit dict on an empty history, otherwise
the statistics dict (the model is pure, so the `except` branch returning a
`"Commit analysis failed"` dict is unreachable). -/
def analyze_commits (cs : List CommitRecord) : CommitAnalysis :=
  if cs.length = 0 then CommitAnalysis.noCommits
  else CommitAnalysis.ok (commitStatsOf cs)

/-- The red-flag dict appended by rule 1 (very few commits). -/
def lowActivityFlag (s : CommitStatistics) : RedFlag where
  type := FlagType.low_activity
  severity := Severity.medium
  message := "Only " ++ toString s.total_commits ++ " commits (expected 10+)"
  score_impact := -15

/-- The red-flag dict appended by rule 2 (single author, no collaboration). -/
def noCollaborationFlag (_s : CommitStatistics) : RedFlag where
  type := FlagType.no_collaboration
  severity := Severity.low
  message := "Single author with no collaboration"
  score_impact := -5

/-- The red-flag dict appended by rule 3 (high hour concentration).  Python
`int(·)` truncates toward zero; the values here are nonnegative, so it is
the floor. -/
def suspiciousTimingFlag (s : CommitStatistics) : RedFlag where
  type := FlagType.suspicious_timing
  severity := Severity.high
  message := toString ⌊s.hour_concentration * 100⌋ ++ "% of commits at same hour"
  score_impact := -25

/-- The red-flag dict appended by rule 4 (very large commit). -/
def bulkUploadFlag (s : CommitStatistics) : RedFlag where
  type := FlagType.bulk_upload
  severity := Severity.high
  message := "Very large commit (" ++ toString s.max_commit_size ++ " lines)"
  score_impact := -20

/-- The red-flag dict appended by rule 5 (many commits in few days). -/
def burstActivityFlag (s : CommitStatistics) : RedFlag where
  type := FlagType.burst_activity
  severity := Severity.high
  message := toString s.total_commits ++ " commits in " ++ toString s.days_active ++ " days"
  score_impact := -25

/-- The red-flag dict appended by rule 6 (generic commit messages). -/
def genericMessagesFlag (s : CommitStatistics) : RedFlag where
  type := FlagType.generic_messages
  severity := Severity.medium
  message := toString ⌊s.generic_message_ratio * 100⌋ ++ "% generic commit messages"
  score_impact := -10

/-- The red-flag dict appended by rule 7 (one author dominates). -/
def dominatedRepoFlag (s : CommitStatistics) : RedFlag where
  type := FlagType.dominated_repo
  severity := Severity.low
  message := "One author made " ++
    toString ⌊(s.top_author_commits : ℚ) / (s.total_commits : ℚ) * 100⌋ ++ "% of commits"
  score_impact := -5

/-- `detect_red_flags`: the empty list on any `"error"` dict, otherwise the
seven rules appended in source order. -/
def detect_red_flags (a : CommitAnalysis) : List RedFlag :=
  match a with
  | CommitAnalysis.noCommits => []
  | CommitAnalysis.failed _ => []
  | CommitAnalysis.ok s =>
    let flags : List RedFlag := []
    let flags := if s.total_commits < 5 then flags ++ [lowActivityFlag s] else flags
    let flags := if s.unique_authors = 1 ∧ s.total_commits > 5 then
      flags ++ [noCollaborationFlag s] else flags
    let flags := if s.hour_concentration > 4/5 then
      flags ++ [suspiciousTimingFlag s] else flags
    let flags := if s.max_commit_size > 1000 then flags ++ [bulkUploadFlag s] else flags
    let flags := if s.total_commits > 20 ∧ s.days_active < 7 then
      flags ++ [burstActivityFlag s] else flags
    let flags := if s.generic_message_ratio > 1/2 then
      flags ++ [genericMessagesFlag s] else flags
    let flags := if s.unique_authors > 1 ∧
      (s.top_author_commits : ℚ) / (s.total_commits : ℚ) > 19/20 then
      flags ++ [dominatedRepoFlag s] else flags
    flags

/-- The running `score` variable of `calculate_repo_authenticity_score` just
before the final clamp: base 50, the six additive bonuses, then every red
flag's `score_impact`. -/
def rawScore (s : CommitStatistics) (red_flags : List RedFlag) : ℤ :=
  let score : ℤ := 50
  let score := if s.total_commits ≥ 10 then score + 10 else score
  let score := if s.total_commits ≥ 50 then score + 10 else score
  let score := if s.unique_authors > 1 then score + 10 else score
  let score := if s.days_active > 30 then score + 10 else score
  let score := if s.days_active > 90 then score + 5 else score
  let score := if s.generic_message_ratio < 3/10 then score + 5 else score
  score + (red_flags.map (fun f => f.score_impact)).sum

/-- `calculate_repo_authenticity_score`: 0 on any `"error"` dict, otherwise
the raw score clamped to `[0, 100]` by `max(0, min(100, score))`. -/
def calculate_repo_authenticity_score (a : CommitAnalysis) (red_flags : List RedFlag) : ℤ :=
  match a with
  | CommitAnalysis.noCommits => 0
  | CommitAnalysis.failed _ => 0
  | CommitAnalysis.ok s => max 0 (min 100 (rawScore s red_flags))

/-- The fixed rule order of the §4.3 red-flag table. -/
def flagOrder : List FlagType :=
  [FlagType.low_activity, FlagType.no_collaboration, FlagType.suspicious_timing,
    FlagType.bulk_upload, FlagType.burst_activity, FlagType.generic_messages,
    FlagType.dominated_repo]

/-- Firing condition of each rule of the §4.3 table, written directly from
the table (a second rendering of the conditions, used to cross-check
`detect_red_flags` against the specified rule set and order). -/
def specRuleFires (t : FlagType) (s : CommitStatistics) : Prop :=
  match t with
  | FlagType.low_activity => s.total_commits < 5
  | FlagType.no_collaboration => s.unique_authors = 1 ∧ s.total_commits > 5
  | FlagType.suspicious_timing => s.hour_concentration > 4/5
  | FlagType.bulk_upload => s.max_commit_size > 1000
  | FlagType.burst_activity => s.total_commits > 20 ∧ s.days_active < 7
  | FlagType.generic_messages => s.generic_message_ratio > 1/2
  | FlagType.dominated_repo =>
    s.unique_authors > 1 ∧ (s.top_author_commits : ℚ) / (s.total_commits : ℚ) > 19/20

instance (t : FlagType) (s : CommitStatistics) : Decidable (specRuleFires t s) := by
  cases t <;> simp only [specRuleFires] <;> infer_instance

/-! ### General lemmas about the helper functions -/

theorem natListMax_mem : ∀ (l : List ℕ), l ≠ [] → natListMax l ∈ l
  | [x], _ => by simp [natListMax]
  | x :: y :: xs, _ => by
    rcases max_cases x (natListMax (y :: xs)) with ⟨h, _⟩ | ⟨h, _⟩
    · simp [natListMax, h]
    · have hm := natListMax_mem (y :: xs) (by simp)
      simp only [natListMax, h]
      exact List.mem_cons_of_mem _ hm

theorem le_natListMax : ∀ (l : List ℕ) (x : ℕ), x ∈ l → x ≤ natListMax l
  | [y], x, h => by simp_all [natListMax]
  | y :: z :: xs, x, h => by
    rcases List.mem_cons.mp h with rfl | h2
    · exact le_max_left _ _
    · exact le_trans (le_natListMax (z :: xs) x h2) (le_max_right _ _)

theorem natListMax_le : ∀ (l : List ℕ) (k : ℕ), (∀ x ∈ l, x ≤ k) → natListMax l ≤ k
  | [], k, _ => Nat.zero_le k
  | [y], k, h => by simpa [natListMax] using h y (by simp)
  | y :: z :: xs, k, h => by
    simp only [natListMax]
    exact max_le (h y (by simp))
      (natListMax_le (z :: xs) k (fun x hx => h x (List.mem_cons_of_mem _ hx)))

theorem natListMin_mem : ∀ (l : List ℕ), l ≠ [] → natListMin l ∈ l
  | [x], _ => by simp [natListMin]
  | x :: y :: xs, _ => by
    rcases min_cases x (natListMin (y :: xs)) with ⟨h, _⟩ | ⟨h, _⟩
    · simp [natListMin, h]
    · have hm := natListMin_mem (y :: xs) (by simp)
      simp only [natListMin, h]
      exact List.mem_cons_of_mem _ hm

theorem natListMin_le : ∀ (l : List ℕ) (x : ℕ), x ∈ l → natListMin l ≤ x
  | [y], x, h => by simp_all [natListMin]
  | y :: z :: xs, x, h => by
    rcases List.mem_cons.mp h with rfl | h2
    · exact min_le_left _ _
    · exact le_trans (min_le_right _ _) (natListMin_le (z :: xs) x h2)

theorem mem_dedupFirstAux {α : Type} [DecidableEq α] (x : α) :
    ∀ (l seen : List α), x ∈ dedupFirstAux seen l ↔ x ∈ l ∧ x ∉ seen
  | [], seen => by simp [dedupFirstAux]
  | y :: ys, seen => by
    by_cases hy : y ∈ seen
    · rw [dedupFirstAux, if_pos hy, mem_dedupFirstAux x ys seen]
      by_cases hxy : x = y
      · subst hxy; simp [hy]
      · simp [hxy]
    · rw [dedupFirstAux, if_neg hy]
      by_cases hxy : x = y
      · subst hxy; simp [hy]
      · simp only [List.mem_cons, hxy, false_or]
        rw [mem_dedupFirstAux x ys (y :: seen)]
        simp [hxy]

theorem mem_dedupFirst {α : Type} [DecidableEq α] (x : α) (l : List α) :
    x ∈ dedupFirst l ↔ x ∈ l := by
  rw [dedupFirst, mem_dedupFirstAux]
  simp

theorem dedupFirst_ne_nil {α : Type} [DecidableEq α] (l : List α) (h : l ≠ []) :
    dedupFirst l ≠ [] := by
  match l with
  | x :: xs =>
    intro hcon
    have : x ∈ dedupFirst (x :: xs) := (mem_dedupFirst x _).mpr (by simp)
    rw [hcon] at this
    exact absurd this (List.not_mem_nil x)

theorem round2_mono {q r : ℚ} (h : q ≤ r) : round2 q ≤ round2 r := by
  rw [round2, round2]
  have : round (q * 100) ≤ round (r * 100) := by
    rw [round_eq, round_eq]
    exact Int.floor_mono (by linarith)
  have hc : ((round (q * 100) : ℤ) : ℚ) ≤ ((round (r * 100) : ℤ) : ℚ) := by
    exact_mod_cast this
  linarith

theorem round2_eq_of_between (q : ℚ) (k : ℤ) (h1 : (k : ℚ) - 1/2 ≤ q * 100)
    (h2 : q * 100 < (k : ℚ) + 1/2) : round2 q = (k : ℚ) / 100 := by
  rw [round2, round_eq]
  have : ⌊q * 100 + 1/2⌋ = k := by
    rw [Int.floor_eq_iff]
    constructor
    · linarith
    · linarith
  rw [this]

/-! ### Lemmas about the aggregated statistics -/

theorem analyze_commits_of_ne_nil (cs : List CommitRecord) (h : cs ≠ []) :
    analyze_commits cs = CommitAnalysis.ok (commitStatsOf cs) := by
  rw [analyze_commits, if_neg]
  simpa using h

theorem commitHours_ne_nil (cs : List CommitRecord) (h : cs ≠ []) :
    commitHours cs ≠ [] := by
  simpa [commitHours] using h

theorem count_le_maxHourCommits (cs : List CommitRecord) (h0 : ℕ) :
    (commitHours cs).count h0 ≤ maxHourCommits cs := by
  by_cases hmem : h0 ∈ commitHours cs
  · have : (commitHours cs).count h0 ∈
        (dedupFirst (commitHours cs)).map (fun h => (commitHours cs).count h) :=
      List.mem_map_of_mem _ ((mem_dedupFirst h0 _).mpr hmem)
    exact le_natListMax _ _ this
  · rw [List.count_eq_zero.mpr hmem]
    exact Nat.zero_le _

theorem maxHourCommits_eq_count (cs : List CommitRecord) (hne : cs ≠ []) :
    ∃ h0 ∈ commitHours cs, maxHourCommits cs = (commitHours cs).count h0 := by
  have hd : dedupFirst (commitHours cs) ≠ [] :=
    dedupFirst_ne_nil _ (commitHours_ne_nil cs hne)
  have hmap : ((dedupFirst (commitHours cs)).map (fun h => (commitHours cs).count h)) ≠ [] := by
    simpa using hd
  have hmem := natListMax_mem _ hmap
  rw [List.mem_map] at hmem
  obtain ⟨h0, hh0, heq⟩ := hmem
  exact ⟨h0, (mem_dedupFirst h0 _).mp hh0, heq.symm⟩

theorem one_le_maxHourCommits (cs : List CommitRecord) (hne : cs ≠ []) :
    1 ≤ maxHourCommits cs := by
  match cs with
  | c :: rest =>
    have hmem : hourOf c.committed_at ∈ commitHours (c :: rest) := by simp [commitHours]
    have h1 : 1 ≤ (commitHours (c :: rest)).count (hourOf c.committed_at) :=
      List.one_le_count_iff.mpr hmem
    exact le_trans h1 (count_le_maxHourCommits _ _)

theorem maxHourCommits_le_length (cs : List CommitRecord) (hne : cs ≠ []) :
    maxHourCommits cs ≤ cs.length := by
  obtain ⟨h0, _, heq⟩ := maxHourCommits_eq_count cs hne
  rw [heq]
  have := List.count_le_length h0 (commitHours cs)
  simpa [commitHours] using this

/-! ### The detector as an ordered concatenation of rule segments -/

/-- The list built by the successive conditional appends of
`detect_red_flags`, rendered as the concatenation of one
singleton-or-empty segment per rule, in source order. -/
def detectSegments (s : CommitStatistics) : List RedFlag :=
  (if s.total_commits < 5 then [lowActivityFlag s] else []) ++
  (if s.unique_authors = 1 ∧ s.total_commits > 5 then [noCollaborationFlag s] else []) ++
  (if s.hour_concentration > 4/5 then [suspiciousTimingFlag s] else []) ++
  (if s.max_commit_size > 1000 then [bulkUploadFlag s] else []) ++
  (if s.total_commits > 20 ∧ s.days_active < 7 then [burstActivityFlag s] else []) ++
  (if s.generic_message_ratio > 1/2 then [genericMessagesFlag s] else []) ++
  (if s.unique_authors > 1 ∧ (s.top_author_commits : ℚ) / (s.total_commits : ℚ) > 19/20
    then [dominatedRepoFlag s] else [])

set_option maxHeartbeats 1000000 in
theorem detect_red_flags_ok (s : CommitStatistics) :
    detect_red_flags (CommitAnalysis.ok s) = detectSegments s := by
  rw [detect_red_flags, detectSegments]
  split_ifs <;>
    simp only [List.nil_append, List.append_nil, List.append_assoc, List.singleton_append,
      List.cons_append]

set_option maxHeartbeats 1000000 in
theorem detect_types_eq_filter (s : CommitStatistics) :
    (detect_red_flags (CommitAnalysis.ok s)).map (fun f => f.type) =
      flagOrder.filter (fun t => decide (specRuleFires t s)) := by
  rw [detect_red_flags_ok, detectSegments, flagOrder]
  simp only [List.filter_cons, List.filter_nil, decide_eq_true_eq, specRuleFires,
    List.map_append, apply_ite (List.map (fun (f : RedFlag) => f.type)), List.map_cons,
    List.map_nil, lowActivityFlag, noCollaborationFlag, suspiciousTimingFlag, bulkUploadFlag,
    burstActivityFlag, genericMessagesFlag, dominatedRepoFlag]
  split_ifs <;>
    simp only [List.nil_append, List.append_nil, List.append_assoc, List.singleton_append,
      List.cons_append]

theorem type_mem_detect_iff (s : CommitStatistics) (t : FlagType) :
    (∃ f ∈ detect_red_flags (CommitAnalysis.ok s), f.type = t) ↔ specRuleFires t s := by
  constructor
  · rintro ⟨f, hf, rfl⟩
    have : f.type ∈ (detect_red_flags (CommitAnalysis.ok s)).map (fun f => f.type) :=
      List.mem_map_of_mem _ hf
    rw [detect_types_eq_filter] at this
    have := List.of_mem_filter this
    simpa using this
  · intro hfire
    have ht : t ∈ flagOrder := by cases t <;> simp [flagOrder]
    have : t ∈ (detect_red_flags (CommitAnalysis.ok s)).map (fun f => f.type) := by
      rw [detect_types_eq_filter]
      exact List.mem_filter.mpr ⟨ht, by simpa using hfire⟩
    rw [List.mem_map] at this
    obtain ⟨f, hf, heq⟩ := this
    exact ⟨f, hf, heq⟩

/-! ### Concrete example inputs -/

/-- Build a commit record from its four components. -/
def mkCommit (a : String) (t : ℕ) (sz : Option ℕ) (msg : String) : CommitRecord :=
  { author_name := a, committed_at := t, lines_changed := sz, message := msg }

/-- A one-commit history. -/
def exSingle : List CommitRecord := [mkCommit "alice" 5000 (some 10) "hello world"]

/-- 25 commits by one author, all in the same hour of the same day, all
with the generic message "update" and 2000 changed lines each: five
penalty rules fire and the raw score becomes negative. -/
def exPenalized : List CommitRecord :=
  (List.range 25).map (fun i => mkCommit "alice" i (some 2000) "update")

/-- Claim C1: for every non-empty commit sequence and any red-flag list, the
authenticity score is an integer in [0, 100]; the score is the raw additive
sum clamped exactly once at the end (so the intermediate sum may leave the
range: on `exPenalized` with its own detected flags the raw sum is −25 and
the returned score is 0). -/
theorem claim_C1 :
    (∀ (cs : List CommitRecord) (red_flags : List RedFlag), cs ≠ [] →
      0 ≤ calculate_repo_authenticity_score (analyze_commits cs) red_flags ∧
      calculate_repo_authenticity_score (analyze_commits cs) red_flags ≤ 100) ∧
    (∀ (s : CommitStatistics) (red_flags : List RedFlag),
      calculate_repo_authenticity_score (CommitAnalysis.ok s) red_flags =
        max 0 (min 100 (rawScore s red_flags))) ∧
    rawScore (commitStatsOf exPenalized)
      (detect_red_flags (analyze_commits exPenalized)) = -25 ∧
    calculate_repo_authenticity_score (analyze_commits exPenalized)
      (detect_red_flags (analyze_commits exPenalized)) = 0 := by
  have hconc : (commitStatsOf exPenalized).hour_concentration = 1 := by
    show round2 (rawHourConcentration exPenalized) = 1
    rw [rawHourConcentration, show maxHourCommits exPenalized = 25 from by decide,
      show exPenalized.length = 25 from by decide]
    norm_num [round2, round_eq]
  have hgen : (commitStatsOf exPenalized).generic_message_ratio = 1 := by
    show round2 (rawGenericRatio exPenalized) = 1
    rw [rawGenericRatio, show genericCount exPenalized = 25 from by decide,
      show exPenalized.length = 25 from by decide]
    norm_num [round2, round_eq]
  have htot : (commitStatsOf exPenalized).total_commits = 25 := by decide
  have hua : (commitStatsOf exPenalized).unique_authors = 1 := by decide
  have htop : (commitStatsOf exPenalized).top_author_commits = 25 := by decide
  have hdays : (commitStatsOf exPenalized).days_active = 1 := by decide
  have hmax : (commitStatsOf exPenalized).max_commit_size = 2000 := by decide
  have han : analyze_commits exPenalized = CommitAnalysis.ok (commitStatsOf exPenalized) := rfl
  have hdet : detect_red_flags (analyze_commits exPenalized) =
      [noCollaborationFlag (commitStatsOf exPenalized),
        suspiciousTimingFlag (commitStatsOf exPenalized),
        bulkUploadFlag (commitStatsOf exPenalized),
        burstActivityFlag (commitStatsOf exPenalized),
        genericMessagesFlag (commitStatsOf exPenalized)] := by
    rw [han, detect_red_flags_ok, detectSegments]
    rw [htot, hua, htop, hdays, hmax, hconc, hgen]
    norm_num
  refine ⟨?_, ?_, ?_, ?_⟩
  · intro cs red_flags h
    rw [analyze_commits_of_ne_nil cs h, calculate_repo_authenticity_score]
    constructor
    · exact le_max_left 0 _
    · exact max_le (by norm_num) (le_trans (min_le_left _ _) (by norm_num))
  · intro s red_flags
    rfl
  · rw [hdet, rawScore]
    rw [htot, hua, hdays, hgen]
    norm_num [noCollaborationFlag, suspiciousTimingFlag, bulkUploadFlag, burstActivityFlag,
      genericMessagesFlag]
  · rw [han, calculate_repo_authenticity_score, ← han, hdet, rawScore]
    rw [htot, hua, hdays, hgen]
    norm_num [noCollaborationFlag, suspiciousTimingFlag, bulkUploadFlag, burstActivityFlag,
      genericMessagesFlag]

/-- Witness for C1 at the concrete one-commit history with no flags. -/
theorem claim_C1_witness :
    exSingle ≠ [] ∧
    0 ≤ calculate_repo_authenticity_score (analyze_commits exSingle) [] ∧
    calculate_repo_authenticity_score (analyze_commits exSingle) [] ≤ 100 := by
  have h : exSingle ≠ [] := by simp [exSingle]
  exact ⟨h, (claim_C1.1 exSingle [] h).1, (claim_C1.1 exSingle [] h).2⟩

/-- Claim C2: the end-to-end analysis of an empty commit sequence returns the
zero-commit outcome with no red flags and score 0 (not an exception). -/
theorem claim_C2 :
    analyze_commits [] = CommitAnalysis.noCommits ∧
    detect_red_flags (analyze_commits []) = [] ∧
    calculate_repo_authenticity_score (analyze_commits [])
      (detect_red_flags (analyze_commits [])) = 0 :=
  ⟨rfl, rfl, rfl⟩

/-- Claim C3: `analyze_commits` yields the `noCommits` outcome exactly on the
empty input; that outcome is distinct from the failure outcome and from
every statistics outcome, and it is reported as its own case rather than
as a red flag (`detect_red_flags` maps it to the empty flag list). -/
theorem claim_C3 :
    (∀ (cs : List CommitRecord),
      analyze_commits cs = CommitAnalysis.noCommits ↔ cs = []) ∧
    (∀ (m : String), CommitAnalysis.noCommits ≠ CommitAnalysis.failed m) ∧
    (∀ (s : CommitStatistics), CommitAnalysis.noCommits ≠ CommitAnalysis.ok s) ∧
    detect_red_flags CommitAnalysis.noCommits = [] := by
  refine ⟨?_, ?_, ?_, rfl⟩
  · intro cs
    constructor
    · intro h
      by_contra hne
      rw [analyze_commits_of_ne_nil cs hne] at h
      exact CommitAnalysis.noConfusion h
    · intro h
      subst h
      rfl
  · intro m h
    exact CommitAnalysis.noConfusion h
  · intro s h
    exact CommitAnalysis.noConfusion h

/-- Witness for C3: the empty history maps to `noCommits`; a nonempty one
does not. -/
theorem claim_C3_witness :
    analyze_commits [] = CommitAnalysis.noCommits ∧
    analyze_commits exSingle ≠ CommitAnalysis.noCommits := by
  constructor
  · exact (claim_C3.1 []).mpr rfl
  · intro h
    have := (claim_C3.1 exSingle).mp h
    simp [exSingle] at this

/-- Scenario B of §8: 60 commits, two authors (30 each), spread over 120
days and across all 24 hours, 6 of 60 messages generic (ratio 0.1), every
commit 40 lines. -/
def exScenarioB : List CommitRecord :=
  (List.range 60).map (fun i =>
    mkCommit (if i < 30 then "alice" else "bob")
      (if i = 59 then 10368000 else i * 172800 + (i % 24) * 3600)
      (some 40)
      (if i < 6 then "update" else "add feature"))

set_option maxRecDepth 4000 in
/-- Claim C4: the scorer is base 50 plus six independently stacking bonuses
plus the sum of all red-flag impacts, clamped once; and Scenario B (60
commits, 2 authors, 120 days active, generic ratio 0.1, no red flags)
scores exactly 100. -/
theorem claim_C4 :
    (∀ (s : CommitStatistics) (red_flags : List RedFlag),
      calculate_repo_authenticity_score (CommitAnalysis.ok s) red_flags =
        max 0 (min 100 (50 +
          (if s.total_commits ≥ 10 then (10 : ℤ) else 0) +
          (if s.total_commits ≥ 50 then (10 : ℤ) else 0) +
          (if s.unique_authors > 1 then (10 : ℤ) else 0) +
          (if s.days_active > 30 then (10 : ℤ) else 0) +
          (if s.days_active > 90 then (5 : ℤ) else 0) +
          (if s.generic_message_ratio < 3/10 then (5 : ℤ) else 0) +
          (red_flags.map (fun f => f.score_impact)).sum))) ∧
    (commitStatsOf exScenarioB).total_commits = 60 ∧
    (commitStatsOf exScenarioB).unique_authors = 2 ∧
    (commitStatsOf exScenarioB).days_active = 120 ∧
    (commitStatsOf exScenarioB).generic_message_ratio = 1/10 ∧
    detect_red_flags (analyze_commits exScenarioB) = [] ∧
    calculate_repo_authenticity_score (analyze_commits exScenarioB)
      (detect_red_flags (analyze_commits exScenarioB)) = 100 := by
  have htot : (commitStatsOf exScenarioB).total_commits = 60 := by decide
  have hua : (commitStatsOf exScenarioB).unique_authors = 2 := by decide
  have htop : (commitStatsOf exScenarioB).top_author_commits = 30 := by decide
  have hdays : (commitStatsOf exScenarioB).days_active = 120 := by decide
  have hmax : (commitStatsOf exScenarioB).max_commit_size = 40 := by decide
  have hconc : (commitStatsOf exScenarioB).hour_concentration = 7/100 := by
    show round2 (rawHourConcentration exScenarioB) = 7/100
    rw [rawHourConcentration, show maxHourCommits exScenarioB = 4 from by decide,
      show exScenarioB.length = 60 from by decide]
    norm_num [round2, round_eq]
  have hgen : (commitStatsOf exScenarioB).generic_message_ratio = 1/10 := by
    show round2 (rawGenericRatio exScenarioB) = 1/10
    rw [rawGenericRatio, show genericCount exScenarioB = 6 from by decide,
      show exScenarioB.length = 60 from by decide]
    norm_num [round2, round_eq]
  have han : analyze_commits exScenarioB = CommitAnalysis.ok (commitStatsOf exScenarioB) := rfl
  have hdet : detect_red_flags (analyze_commits exScenarioB) = [] := by
    rw [han, detect_red_flags_ok, detectSegments]
    rw [htot, hua, htop, hdays, hmax, hconc, hgen]
    norm_num
  refine ⟨?_, htot, hua, hdays, hgen, hdet, ?_⟩
  · intro s red_flags
    simp only [calculate_repo_authenticity_score, rawScore]
    split_ifs <;> omega
  · rw [han, calculate_repo_authenticity_score, ← han, hdet, rawScore]
    rw [htot, hua, hdays, hgen]
    norm_num

/-- Claim C5: for every statistics value, the detector's output is exactly
the fixed seven-rule table filtered by each rule's own condition — all seven
rules are evaluated unconditionally and the firing flags appear in the fixed
table order. -/
theorem claim_C5 :
    ∀ (s : CommitStatistics),
      (detect_red_flags (CommitAnalysis.ok s)).map (fun f => f.type) =
        flagOrder.filter (fun t => decide (specRuleFires t s)) :=
  detect_types_eq_filter

/-- Claim C7: `days_active` is `max(1, floor((last − first) in days))` and
`commits_per_day` is `total_commits / days_active` rounded to 2 decimals;
for a single commit, `days_active = 1`, `commits_per_day = total_commits`
and `hour_concentration = 1`. -/
theorem claim_C7 :
    ∀ (cs : List CommitRecord), cs ≠ [] →
      analyze_commits cs = CommitAnalysis.ok (commitStatsOf cs) ∧
      (commitStatsOf cs).days_active =
        max 1 (((commitStatsOf cs).last_commit_date -
          (commitStatsOf cs).first_commit_date) / 86400) ∧
      (commitStatsOf cs).commits_per_day =
        round2 (((commitStatsOf cs).total_commits : ℚ) /
          ((commitStatsOf cs).days_active : ℚ)) ∧
      (∀ (c : CommitRecord), cs = [c] →
        (commitStatsOf cs).days_active = 1 ∧
        (commitStatsOf cs).commits_per_day = ((commitStatsOf cs).total_commits : ℚ) ∧
        (commitStatsOf cs).hour_concentration = 1) := by
  intro cs h
  refine ⟨analyze_commits_of_ne_nil cs h, ?_, rfl, ?_⟩
  · show max (daysSpan cs) 1 = max 1 (daysSpan cs)
    exact Nat.max_comm _ _
  · intro c hc
    subst hc
    have h0 : daysSpan [c] = 0 := by
      simp [daysSpan, commitTimes, natListMax, natListMin]
    have hm : maxHourCommits [c] = 1 := by
      simp [maxHourCommits, commitHours, dedupFirst, dedupFirstAux, natListMax]
    refine ⟨?_, ?_, ?_⟩
    · show max (daysSpan [c]) 1 = 1
      rw [h0]
      decide
    · show round2 ((([c].length : ℕ) : ℚ) / ((max (daysSpan [c]) 1 : ℕ) : ℚ)) =
        (([c].length : ℕ) : ℚ)
      rw [h0]
      norm_num [round2, round_eq]
    · show round2 (rawHourConcentration [c]) = 1
      rw [rawHourConcentration, hm]
      norm_num [round2, round_eq]

/-- Witness for C7 at the concrete one-commit history. -/
theorem claim_C7_witness :
    (commitStatsOf exSingle).days_active = 1 ∧
    (commitStatsOf exSingle).commits_per_day = ((commitStatsOf exSingle).total_commits : ℚ) ∧
    (commitStatsOf exSingle).hour_concentration = 1 :=
  (claim_C7 exSingle (by simp [exSingle])).2.2.2
    (mkCommit "alice" 5000 (some 10) "hello world") rfl

/-- Claim C8: the three size statistics are computed only over commits with
a known `lines_changed`; a commit with unknown size is excluded from the
size list and leaves all three size statistics unchanged, and when no size
is known all three are 0. -/
theorem claim_C8 :
    ∀ (cs : List CommitRecord), cs ≠ [] →
      ((commitStatsOf cs).avg_commit_size =
        (if commit_sizes cs = [] then 0
          else round1 (((commit_sizes cs).sum : ℚ) / ((commit_sizes cs).length : ℚ))) ∧
       (commitStatsOf cs).median_commit_size =
        (if commit_sizes cs = [] then 0 else round1 (medianQ (commit_sizes cs))) ∧
       (commitStatsOf cs).max_commit_size =
        (if commit_sizes cs = [] then 0 else natListMax (commit_sizes cs))) ∧
      (∀ (c : CommitRecord), c.lines_changed = none →
        commit_sizes (c :: cs) = commit_sizes cs ∧
        (commitStatsOf (c :: cs)).avg_commit_size = (commitStatsOf cs).avg_commit_size ∧
        (commitStatsOf (c :: cs)).median_commit_size = (commitStatsOf cs).median_commit_size ∧
        (commitStatsOf (c :: cs)).max_commit_size = (commitStatsOf cs).max_commit_size) ∧
      (commit_sizes cs = [] →
        (commitStatsOf cs).avg_commit_size = 0 ∧
        (commitStatsOf cs).median_commit_size = 0 ∧
        (commitStatsOf cs).max_commit_size = 0) := by
  intro cs _h
  refine ⟨⟨rfl, rfl, rfl⟩, ?_, ?_⟩
  · intro c hc
    have hsz : commit_sizes (c :: cs) = commit_sizes cs := by
      simp [commit_sizes, hc]
    refine ⟨hsz, ?_, ?_, ?_⟩
    · show (if commit_sizes (c :: cs) = [] then (0 : ℚ)
          else round1 (((commit_sizes (c :: cs)).sum : ℚ) /
            ((commit_sizes (c :: cs)).length : ℚ))) =
        (if commit_sizes cs = [] then (0 : ℚ)
          else round1 (((commit_sizes cs).sum : ℚ) / ((commit_sizes cs).length : ℚ)))
      rw [hsz]
    · show (if commit_sizes (c :: cs) = [] then (0 : ℚ)
          else round1 (medianQ (commit_sizes (c :: cs)))) =
        (if commit_sizes cs = [] then (0 : ℚ) else round1 (medianQ (commit_sizes cs)))
      rw [hsz]
    · show (if commit_sizes (c :: cs) = [] then 0 else natListMax (commit_sizes (c :: cs))) =
        (if commit_sizes cs = [] then 0 else natListMax (commit_sizes cs))
      rw [hsz]
  · intro hempty
    refine ⟨?_, ?_, ?_⟩
    · show (if commit_sizes cs = [] then (0 : ℚ)
          else round1 (((commit_sizes cs).sum : ℚ) / ((commit_sizes cs).length : ℚ))) = 0
      rw [if_pos hempty]
    · show (if commit_sizes cs = [] then (0 : ℚ)
          else round1 (medianQ (commit_sizes cs))) = 0
      rw [if_pos hempty]
    · show (if commit_sizes cs = [] then 0 else natListMax (commit_sizes cs)) = 0
      rw [if_pos hempty]

/-- Witness for C8: prepending an unknown-size commit to the concrete
one-commit history leaves the size statistics unchanged. -/
theorem claim_C8_witness :
    commit_sizes (mkCommit "bob" 9999 none "noop" :: exSingle) = commit_sizes exSingle ∧
    (commitStatsOf (mkCommit "bob" 9999 none "noop" :: exSingle)).avg_commit_size =
      (commitStatsOf exSingle).avg_commit_size ∧
    (commitStatsOf (mkCommit "bob" 9999 none "noop" :: exSingle)).median_commit_size =
      (commitStatsOf exSingle).median_commit_size ∧
    (commitStatsOf (mkCommit "bob" 9999 none "noop" :: exSingle)).max_commit_size =
      (commitStatsOf exSingle).max_commit_size :=
  (claim_C8 exSingle (by simp [exSingle])).2.1 (mkCommit "bob" 9999 none "noop") rfl

/-- Number of distinct hour-of-day buckets that contain at least one commit. -/
def distinctHourCount (cs : List CommitRecord) : ℕ :=
  (dedupFirst (commitHours cs)).length

/-- Four commits with hour profile 0,0,1,1 (two buckets of two). -/
def exHoursA : List CommitRecord :=
  [mkCommit "a" 0 none "m", mkCommit "a" 1 none "m",
    mkCommit "a" 3600 none "m", mkCommit "a" 3601 none "m"]

/-- Four commits with hour profile 0,0,0,1: as many distinct hours as
`exHoursA` but a fuller largest bucket. -/
def exHoursB : List CommitRecord :=
  [mkCommit "a" 0 none "m", mkCommit "a" 1 none "m",
    mkCommit "a" 2 none "m", mkCommit "a" 3600 none "m"]

/-- Four commits with hour profile 0,0,1,2: obtained from `exHoursA` by
moving one commit of bucket 1 into the previously empty bucket 2. -/
def exMoved : List CommitRecord :=
  [mkCommit "a" 0 none "m", mkCommit "a" 1 none "m",
    mkCommit "a" 3600 none "m", mkCommit "a" 7200 none "m"]

/-- Counterexample to C9 as stated: `exHoursB` has the same total and at
least as many distinct hours as `exHoursA`, yet a strictly larger
`hour_concentration` (0.75 versus 0.5). -/
theorem claim_C9_counterexample :
    exHoursA ≠ [] ∧ exHoursB ≠ [] ∧
    exHoursA.length = exHoursB.length ∧
    distinctHourCount exHoursA ≤ distinctHourCount exHoursB ∧
    (commitStatsOf exHoursA).hour_concentration = 1/2 ∧
    (commitStatsOf exHoursB).hour_concentration = 3/4 ∧
    ¬ ((commitStatsOf exHoursB).hour_concentration ≤
        (commitStatsOf exHoursA).hour_concentration) := by
  have hA : (commitStatsOf exHoursA).hour_concentration = 1/2 := by
    show round2 (rawHourConcentration exHoursA) = 1/2
    rw [rawHourConcentration, show maxHourCommits exHoursA = 2 from by decide,
      show exHoursA.length = 4 from by decide]
    norm_num [round2, round_eq]
  have hB : (commitStatsOf exHoursB).hour_concentration = 3/4 := by
    show round2 (rawHourConcentration exHoursB) = 3/4
    rw [rawHourConcentration, show maxHourCommits exHoursB = 3 from by decide,
      show exHoursB.length = 4 from by decide]
    norm_num [round2, round_eq]
  refine ⟨by decide, by decide, by decide, by decide, hA, hB, ?_⟩
  rw [hA, hB]
  norm_num

/-- Claim C9, amended: with the total unchanged, redistributing commits so
that every hour bucket either does not exceed its original count or holds
at most one commit (each moved commit lands in its own previously light
bucket) cannot increase `hour_concentration`. -/
theorem claim_C9_amended :
    ∀ (cs1 cs2 : List CommitRecord), cs1 ≠ [] → cs2 ≠ [] →
      cs1.length = cs2.length →
      (∀ h ∈ List.range 24,
        (commitHours cs2).count h ≤ (commitHours cs1).count h ∨
        (commitHours cs2).count h ≤ 1) →
      (commitStatsOf cs2).hour_concentration ≤ (commitStatsOf cs1).hour_concentration := by
  intro cs1 cs2 h1 h2 hlen hcount
  have hmax : maxHourCommits cs2 ≤ maxHourCommits cs1 := by
    obtain ⟨h0, hh0, heq⟩ := maxHourCommits_eq_count cs2 h2
    have hlt : h0 < 24 := by
      rw [commitHours, List.mem_map] at hh0
      obtain ⟨c, _, rfl⟩ := hh0
      exact Nat.mod_lt _ (by norm_num)
    rcases hcount h0 (List.mem_range.mpr hlt) with hle | hle
    · rw [heq]
      exact le_trans hle (count_le_maxHourCommits cs1 h0)
    · rw [heq]
      exact le_trans hle (one_le_maxHourCommits cs1 h1)
  show round2 (rawHourConcentration cs2) ≤ round2 (rawHourConcentration cs1)
  apply round2_mono
  rw [rawHourConcentration, rawHourConcentration, ← hlen]
  have hpos : (0 : ℚ) < (cs1.length : ℚ) := by
    exact_mod_cast List.length_pos.mpr h1
  have hQ : (maxHourCommits cs2 : ℚ) ≤ (maxHourCommits cs1 : ℚ) := by exact_mod_cast hmax
  exact (div_le_div_iff_of_pos_right hpos).mpr hQ

/-- Witness for the amended C9: moving one commit of `exHoursA` into a
previously empty bucket does not increase the concentration. -/
theorem claim_C9_witness :
    (commitStatsOf exMoved).hour_concentration ≤
      (commitStatsOf exHoursA).hour_concentration :=
  claim_C9_amended exHoursA exMoved (by decide) (by decide) (by decide) (by decide)

/-- 41 commits, 33 in hour bucket 0 and 8 in bucket 1: the exact hour
concentration 33/41 lies strictly between 0.8 and 0.805. -/
def exConc41 : List CommitRecord :=
  (List.range 33).map (fun i => mkCommit "a" i none "w") ++
    (List.range 8).map (fun i => mkCommit "a" (3600 + i) none "w")

/-- 101 commits, 51 with the generic message "update": the exact generic
ratio 51/101 lies strictly between 0.5 and 0.505. -/
def exGen101 : List CommitRecord :=
  (List.range 101).map (fun i =>
    mkCommit "a" i none (if i < 51 then "update" else "progress"))

/-- Claim C10: the detector thresholds are evaluated on the 2-decimal
rounded statistics, not the exact ratios: an exact hour concentration
strictly between 0.8 and 0.805 is stored as 0.80 and does not fire
`suspicious_timing`, and an exact generic ratio strictly between 0.5 and
0.505 is stored as 0.50 and does not fire `generic_messages`. -/
theorem claim_C10 :
    ∀ (cs : List CommitRecord), cs ≠ [] →
      (4/5 < rawHourConcentration cs → rawHourConcentration cs < 161/200 →
        (commitStatsOf cs).hour_concentration = 4/5 ∧
        ∀ f ∈ detect_red_flags (analyze_commits cs),
          f.type ≠ FlagType.suspicious_timing) ∧
      (1/2 < rawGenericRatio cs → rawGenericRatio cs < 101/200 →
        (commitStatsOf cs).generic_message_ratio = 1/2 ∧
        ∀ f ∈ detect_red_flags (analyze_commits cs),
          f.type ≠ FlagType.generic_messages) := by
  intro cs hne
  constructor
  · intro hlo hhi
    have hc : (commitStatsOf cs).hour_concentration = 4/5 := by
      show round2 (rawHourConcentration cs) = 4/5
      rw [round2_eq_of_between (rawHourConcentration cs) 80 (by linarith) (by linarith)]
      norm_num
    refine ⟨hc, ?_⟩
    intro f hf hft
    rw [analyze_commits_of_ne_nil cs hne] at hf
    have hfire : specRuleFires FlagType.suspicious_timing (commitStatsOf cs) :=
      (type_mem_detect_iff _ _).mp ⟨f, hf, hft⟩
    simp only [specRuleFires] at hfire
    rw [hc] at hfire
    exact absurd hfire (by norm_num)
  · intro hlo hhi
    have hc : (commitStatsOf cs).generic_message_ratio = 1/2 := by
      show round2 (rawGenericRatio cs) = 1/2
      rw [round2_eq_of_between (rawGenericRatio cs) 50 (by linarith) (by linarith)]
      norm_num
    refine ⟨hc, ?_⟩
    intro f hf hft
    rw [analyze_commits_of_ne_nil cs hne] at hf
    have hfire : specRuleFires FlagType.generic_messages (commitStatsOf cs) :=
      (type_mem_detect_iff _ _).mp ⟨f, hf, hft⟩
    simp only [specRuleFires] at hfire
    rw [hc] at hfire
    exact absurd hfire (by norm_num)

set_option maxRecDepth 8000 in
/-- Witness for C10 at the two concrete histories: exact ratios 33/41 and
51/101, stored as 0.80 and 0.50 respectively. -/
theorem claim_C10_witness :
    4/5 < rawHourConcentration exConc41 ∧ rawHourConcentration exConc41 < 161/200 ∧
    (commitStatsOf exConc41).hour_concentration = 4/5 ∧
    1/2 < rawGenericRatio exGen101 ∧ rawGenericRatio exGen101 < 101/200 ∧
    (commitStatsOf exGen101).generic_message_ratio = 1/2 := by
  have hr1 : rawHourConcentration exConc41 = 33/41 := by
    rw [rawHourConcentration, show maxHourCommits exConc41 = 33 from by decide,
      show exConc41.length = 41 from by decide]
    norm_num
  have hr2 : rawGenericRatio exGen101 = 51/101 := by
    rw [rawGenericRatio, show genericCount exGen101 = 51 from by decide,
      show exGen101.length = 101 from by decide]
    norm_num
  have ha : 4/5 < rawHourConcentration exConc41 := by
    rw [hr1]
    norm_num
  have hb : rawHourConcentration exConc41 < 161/200 := by
    rw [hr1]
    norm_num
  have hgl : 1/2 < rawGenericRatio exGen101 := by
    rw [hr2]
    norm_num
  have hgh : rawGenericRatio exGen101 < 101/200 := by
    rw [hr2]
    norm_num
  have hA := (claim_C10 exConc41 (by decide)).1 ha hb
  have hB := (claim_C10 exGen101 (by decide)).2 hgl hgh
  exact ⟨ha, hb, hA.1, hgl, hgh, hB.1⟩

/-- Three commits at consecutive seconds (one hour bucket), one author,
message "update", 2000 changed lines each: the premises of Scenario A hold
but `suspicious_timing` and `bulk_upload` also fire. -/
def exSameHour : List CommitRecord :=
  [mkCommit "a" 0 (some 2000) "update", mkCommit "a" 1 (some 2000) "update",
    mkCommit "a" 2 (some 2000) "update"]

/-- Three commits in three different hour buckets, one author, message
"update", sizes unknown. -/
def exSpreadA : List CommitRecord :=
  [mkCommit "a" 0 none "update", mkCommit "a" 3600 none "update",
    mkCommit "a" 7200 none "update"]

/-- Counterexample to C6 as stated: `exSameHour` satisfies every premise of
Scenario A (3 commits, 1 author, within 1 day, first lines "update"), yet
the analysis also fires `suspicious_timing` (all commits share one hour
bucket) and `bulk_upload` (2000-line commits), and the score is 0, not 25. -/
theorem claim_C6_counterexample :
    exSameHour.length = 3 ∧
    exSameHour.all (fun c => c.author_name == "a") = true ∧
    exSameHour.all (fun c =>
      exSameHour.all (fun c2 => c.committed_at - c2.committed_at < 86400)) = true ∧
    exSameHour.all (fun c => normalizedFirstLine c.message == "update") = true ∧
    (detect_red_flags (analyze_commits exSameHour)).map (fun f => f.type) =
      [FlagType.low_activity, FlagType.suspicious_timing, FlagType.bulk_upload,
        FlagType.generic_messages] ∧
    calculate_repo_authenticity_score (analyze_commits exSameHour)
      (detect_red_flags (analyze_commits exSameHour)) = 0 ∧
    ¬ ((detect_red_flags (analyze_commits exSameHour)).map (fun f => f.type) =
        [FlagType.low_activity, FlagType.generic_messages] ∧
      calculate_repo_authenticity_score (analyze_commits exSameHour)
        (detect_red_flags (analyze_commits exSameHour)) = 25) := by
  have hconc : (commitStatsOf exSameHour).hour_concentration = 1 := by
    show round2 (rawHourConcentration exSameHour) = 1
    rw [rawHourConcentration, show maxHourCommits exSameHour = 3 from by decide,
      show exSameHour.length = 3 from by decide]
    norm_num [round2, round_eq]
  have hgen : (commitStatsOf exSameHour).generic_message_ratio = 1 := by
    show round2 (rawGenericRatio exSameHour) = 1
    rw [rawGenericRatio, show genericCount exSameHour = 3 from by decide,
      show exSameHour.length = 3 from by decide]
    norm_num [round2, round_eq]
  have htot : (commitStatsOf exSameHour).total_commits = 3 := by decide
  have hua : (commitStatsOf exSameHour).unique_authors = 1 := by decide
  have htop : (commitStatsOf exSameHour).top_author_commits = 3 := by decide
  have hdays : (commitStatsOf exSameHour).days_active = 1 := by decide
  have hmax : (commitStatsOf exSameHour).max_commit_size = 2000 := by decide
  have han : analyze_commits exSameHour = CommitAnalysis.ok (commitStatsOf exSameHour) := rfl
  have hdet : detect_red_flags (analyze_commits exSameHour) =
      [lowActivityFlag (commitStatsOf exSameHour),
        suspiciousTimingFlag (commitStatsOf exSameHour),
        bulkUploadFlag (commitStatsOf exSameHour),
        genericMessagesFlag (commitStatsOf exSameHour)] := by
    rw [han, detect_red_flags_ok, detectSegments]
    rw [htot, hua, htop, hdays, hmax, hconc, hgen]
    norm_num
  have hscore : calculate_repo_authenticity_score (analyze_commits exSameHour)
      (detect_red_flags (analyze_commits exSameHour)) = 0 := by
    rw [han, calculate_repo_authenticity_score, ← han, hdet, rawScore]
    rw [htot, hua, hdays, hgen]
    norm_num [lowActivityFlag, suspiciousTimingFlag, bulkUploadFlag, genericMessagesFlag]
  refine ⟨by decide, by decide, by decide, by decide, ?_, hscore, ?_⟩
  · rw [hdet]
    simp [lowActivityFlag, suspiciousTimingFlag, bulkUploadFlag, genericMessagesFlag]
  · rintro ⟨-, h25⟩
    rw [hscore] at h25
    exact absurd h25 (by norm_num)

/-- Claim C6, amended: for every sequence of exactly 3 commits by one
author, all within one day, all with first message line "update", with no
known commit size above 1000 lines and not all three commits in the same
hour-of-day bucket, the analysis produces exactly the Low-activity and
Generic-messages flags (in that order) and the score 50 − 15 − 10 = 25. -/
theorem claim_C6_amended :
    ∀ (cs : List CommitRecord), cs.length = 3 →
      (∀ c ∈ cs, ∀ c2 ∈ cs, c.author_name = c2.author_name) →
      (∀ c ∈ cs, ∀ c2 ∈ cs, c.committed_at - c2.committed_at < 86400) →
      (∀ c ∈ cs, normalizedFirstLine c.message = "update") →
      (∀ c ∈ cs, c.lines_changed.getD 0 ≤ 1000) →
      (¬ ∀ c ∈ cs, ∀ c2 ∈ cs, hourOf c.committed_at = hourOf c2.committed_at) →
      (detect_red_flags (analyze_commits cs)).map (fun f => f.type) =
        [FlagType.low_activity, FlagType.generic_messages] ∧
      calculate_repo_authenticity_score (analyze_commits cs)
        (detect_red_flags (analyze_commits cs)) = 25 := by
  intro cs hlen hauth hday hmsg hsz hnsame
  obtain ⟨a, b, c, rfl⟩ := List.length_eq_three.mp hlen
  have hne : ([a, b, c] : List CommitRecord) ≠ [] := by simp
  -- total commits
  have htot : (commitStatsOf [a, b, c]).total_commits = 3 := rfl
  -- one author
  have hab : b.author_name = a.author_name := hauth b (by simp) a (by simp)
  have hac : c.author_name = a.author_name := hauth c (by simp) a (by simp)
  have hua : (commitStatsOf [a, b, c]).unique_authors = 1 := by
    show (dedupFirst (commitAuthors [a, b, c])).length = 1
    simp [commitAuthors, dedupFirst, dedupFirstAux, hab, hac]
  -- one active day
  have hspan : daysSpan [a, b, c] = 0 := by
    have hmx := natListMax_mem (commitTimes [a, b, c]) (by simp [commitTimes])
    have hmn := natListMin_mem (commitTimes [a, b, c]) (by simp [commitTimes])
    rw [commitTimes, List.mem_map] at hmx hmn
    obtain ⟨c0, hc0, heq0⟩ := hmx
    obtain ⟨c1, hc1, heq1⟩ := hmn
    rw [daysSpan, commitTimes, ← heq0, ← heq1]
    exact Nat.div_eq_of_lt (hday c0 hc0 c1 hc1)
  have hdays : (commitStatsOf [a, b, c]).days_active = 1 := by
    show max (daysSpan [a, b, c]) 1 = 1
    rw [hspan]
    decide
  -- all messages generic
  have hma : normalizedFirstLine a.message = "update" := hmsg a (by simp)
  have hmb : normalizedFirstLine b.message = "update" := hmsg b (by simp)
  have hmc : normalizedFirstLine c.message = "update" := hmsg c (by simp)
  have hgc : genericCount [a, b, c] = 3 := by
    rw [genericCount, commitMessages]
    simp only [List.map_cons, List.map_nil, hma, hmb, hmc]
    decide
  have hgen : (commitStatsOf [a, b, c]).generic_message_ratio = 1 := by
    show round2 (rawGenericRatio [a, b, c]) = 1
    rw [rawGenericRatio, hgc, show ([a, b, c] : List CommitRecord).length = 3 from rfl]
    norm_num [round2, round_eq]
  -- bounded commit sizes
  have hmaxle : (commitStatsOf [a, b, c]).max_commit_size ≤ 1000 := by
    show (if commit_sizes [a, b, c] = [] then 0 else natListMax (commit_sizes [a, b, c])) ≤ 1000
    by_cases hs : commit_sizes [a, b, c] = []
    · rw [if_pos hs]
      norm_num
    · rw [if_neg hs]
      apply natListMax_le
      intro x hx
      rw [commit_sizes, List.mem_filterMap] at hx
      obtain ⟨c0, hc0, hx0⟩ := hx
      have := hsz c0 hc0
      rw [hx0] at this
      simpa using this
  -- small hour concentration
  have hm2 : maxHourCommits [a, b, c] ≤ 2 := by
    obtain ⟨h0, hh0, heq⟩ := maxHourCommits_eq_count [a, b, c] hne
    rw [heq]
    by_contra hcon
    push_neg at hcon
    have hlen3 : (commitHours [a, b, c]).length = 3 := by simp [commitHours]
    have hle := List.count_le_length h0 (commitHours [a, b, c])
    have hcnt : (commitHours [a, b, c]).count h0 = (commitHours [a, b, c]).length := by
      omega
    have hall := List.count_eq_length.mp hcnt
    apply hnsame
    intro c1 hc1 c2 hc2
    have e1 : hourOf c1.committed_at = h0 := by
      have hmem : hourOf c1.committed_at ∈ commitHours [a, b, c] := by
        rw [commitHours]
        exact List.mem_map_of_mem _ hc1
      have := hall _ hmem
      simp only [beq_iff_eq] at this
      exact this.symm
    have e2 : hourOf c2.committed_at = h0 := by
      have hmem : hourOf c2.committed_at ∈ commitHours [a, b, c] := by
        rw [commitHours]
        exact List.mem_map_of_mem _ hc2
      have := hall _ hmem
      simp only [beq_iff_eq] at this
      exact this.symm
    rw [e1, e2]
  have hconcle : (commitStatsOf [a, b, c]).hour_concentration ≤ 67/100 := by
    show round2 (rawHourConcentration [a, b, c]) ≤ 67/100
    have hraw : rawHourConcentration [a, b, c] ≤ 2/3 := by
      rw [rawHourConcentration, show ([a, b, c] : List CommitRecord).length = 3 from rfl]
      have hQ : ((maxHourCommits [a, b, c] : ℕ) : ℚ) ≤ 2 := by
        exact_mod_cast hm2
      rw [div_le_div_iff₀ (by norm_num) (by norm_num)]
      push_cast
      linarith
    calc round2 (rawHourConcentration [a, b, c]) ≤ round2 (2/3) := round2_mono hraw
      _ = 67/100 := by norm_num [round2, round_eq]
  -- rule conditions
  have c1cond : (commitStatsOf [a, b, c]).total_commits < 5 := by
    rw [htot]
    norm_num
  have c2cond : ¬((commitStatsOf [a, b, c]).unique_authors = 1 ∧
      (commitStatsOf [a, b, c]).total_commits > 5) := by
    rw [hua, htot]
    norm_num
  have c3cond : ¬((commitStatsOf [a, b, c]).hour_concentration > 4/5) := by
    intro hgt
    have : (67:ℚ)/100 < 4/5 := by norm_num
    linarith
  have c4cond : ¬((commitStatsOf [a, b, c]).max_commit_size > 1000) :=
    not_lt.mpr hmaxle
  have c5cond : ¬((commitStatsOf [a, b, c]).total_commits > 20 ∧
      (commitStatsOf [a, b, c]).days_active < 7) := by
    rw [htot]
    norm_num
  have c6cond : (commitStatsOf [a, b, c]).generic_message_ratio > 1/2 := by
    rw [hgen]
    norm_num
  have c7cond : ¬((commitStatsOf [a, b, c]).unique_authors > 1 ∧
      ((commitStatsOf [a, b, c]).top_author_commits : ℚ) /
        ((commitStatsOf [a, b, c]).total_commits : ℚ) > 19/20) := by
    rw [hua]
    norm_num
  have hdet : detect_red_flags (analyze_commits [a, b, c]) =
      [lowActivityFlag (commitStatsOf [a, b, c]),
        genericMessagesFlag (commitStatsOf [a, b, c])] := by
    rw [analyze_commits_of_ne_nil _ hne, detect_red_flags_ok, detectSegments]
    rw [if_pos c1cond, if_neg c2cond, if_neg c3cond, if_neg c4cond, if_neg c5cond,
      if_pos c6cond, if_neg c7cond]
    simp
  constructor
  · rw [hdet]
    simp [lowActivityFlag, genericMessagesFlag]
  · rw [analyze_commits_of_ne_nil _ hne, calculate_repo_authenticity_score,
      ← analyze_commits_of_ne_nil _ hne, hdet, rawScore]
    rw [htot, hua, hdays, hgen]
    norm_num [lowActivityFlag, genericMessagesFlag]

/-- Witness for the amended C6 at the concrete spread-out Scenario A input. -/
theorem claim_C6_witness :
    (detect_red_flags (analyze_commits exSpreadA)).map (fun f => f.type) =
      [FlagType.low_activity, FlagType.generic_messages] ∧
    calculate_repo_authenticity_score (analyze_commits exSpreadA)
      (detect_red_flags (analyze_commits exSpreadA)) = 25 :=
  claim_C6_amended exSpreadA (by decide) (by decide) (by decide) (by decide) (by decide)
    (by decide)
